import Mathlib

/-!
Verification development for the `markdown-render` CLI (TypeScript sources
`src/presets.ts` and `src/markdown-render.ts`).  The data model and every
operation below are shallow embeddings of the TypeScript code: pure string
manipulation is translated function-by-function, the process-wide template
cache becomes explicit state passing, and fallible code returns
`Option`/`Except`.  External collaborators (the Markdown parser `marked`,
Mustache templating, the filesystem and the browser launcher) are treated as
opaque parameters, as the code itself treats them.
-/

/-- Embeds interface `ThemePalette` (presets.ts): seven required CSS
color/background fields. -/
structure ThemePalette where
  background : String
  foreground : String
  codeBackground : String
  codeForeground : String
  border : String
  link : String
  linkHover : String
  deriving DecidableEq, Repr

/-- Embeds the `palette: { light; dark }` field of `StylePreset`. -/
structure PresetPalette where
  light : ThemePalette
  dark : ThemePalette
  deriving DecidableEq, Repr

/-- Embeds interface `StylePreset` (presets.ts).  Optional TypeScript fields
become `Option`. -/
structure StylePreset where
  id : String
  label : String
  description : String
  fontImports : List String
  fontFamily : String
  headingFontFamily : Option String
  monoFontFamily : Option String
  palette : PresetPalette
  extraCSS : Option String
  deriving DecidableEq, Repr

/-- The `geist-prose` entry of the `PRESETS` array (presets.ts lines 27-75).
Braces inside CSS strings are written `\x7b`/`\x7d`. -/
def geistProse : StylePreset :=
  { id := "geist-prose"
    label := "Geist Prose"
    description := "Geist Sans & Mono with Tailwind prose-inspired colors"
    fontImports :=
      [ "<link rel=\"preconnect\" href=\"https://fonts.googleapis.com\">"
      , "<link rel=\"preconnect\" href=\"https://fonts.gstatic.com\" crossorigin>"
      , "<link href=\"https://fonts.googleapis.com/css2?family=Geist:wght@300..800&family=Geist+Mono:wght@400..700&display=swap\" rel=\"stylesheet\">" ]
    fontFamily := "\"Geist\", -apple-system, BlinkMacSystemFont, \"Segoe UI\", sans-serif"
    headingFontFamily := some "\"Geist\", -apple-system, BlinkMacSystemFont, \"Segoe UI\", sans-serif"
    monoFontFamily := some "\"Geist Mono\", SFMono-Regular, Menlo, Monaco, Consolas, \"Liberation Mono\", monospace"
    palette :=
      { light :=
          { background := "linear-gradient(135deg, #f8fafc 0%, #f1f5f9 100%)"
            foreground := "#0f172a"
            codeBackground := "#e2e8f0"
            codeForeground := "#0f172a"
            border := "#cbd5f5"
            link := "#2563eb"
            linkHover := "#1d4ed8" }
        dark :=
          { background := "linear-gradient(160deg, #0b1120 0%, #111827 45%, #020617 100%)"
            foreground := "#e2e8f0"
            codeBackground := "#1e293b"
            codeForeground := "#e2e8f0"
            border := "#334155"
            link := "#93c5fd"
            linkHover := "#bfdbfe" } }
    extraCSS := some "    h1, h2, h3, h4, h5, h6 \x7b\n      letter-spacing: -0.01em;\n    \x7d\n    a \x7b\n      text-decoration: none;\n    \x7d\n    a:hover, a:focus \x7b\n      text-decoration: underline;\n    \x7d\n    img \x7b\n      border-radius: 0.75rem;\n    \x7d\n    blockquote \x7b\n      border-left-width: 0.25rem;\n    \x7d\n" }

/-- The `inter-ui` entry of the `PRESETS` array (presets.ts lines 76-113). -/
def interUi : StylePreset :=
  { id := "inter-ui"
    label := "Inter UI"
    description := "Inter with neutral slate prose colors"
    fontImports :=
      [ "<link rel=\"preconnect\" href=\"https://fonts.googleapis.com\">"
      , "<link rel=\"preconnect\" href=\"https://fonts.gstatic.com\" crossorigin>"
      , "<link href=\"https://fonts.googleapis.com/css2?family=Inter:wght@300;400;500;600;700&display=swap\" rel=\"stylesheet\">" ]
    fontFamily := "\"Inter\", -apple-system, BlinkMacSystemFont, \"Segoe UI\", sans-serif"
    headingFontFamily := some "\"Inter\", -apple-system, BlinkMacSystemFont, \"Segoe UI\", sans-serif"
    monoFontFamily := some "SFMono-Regular, Menlo, Monaco, Consolas, \"Liberation Mono\", monospace"
    palette :=
      { light :=
          { background := "#f8fafc"
            foreground := "#0f172a"
            codeBackground := "#e2e8f0"
            codeForeground := "#0f172a"
            border := "#cbd5f5"
            link := "#2563eb"
            linkHover := "#1d4ed8" }
        dark :=
          { background := "#020617"
            foreground := "#e2e8f0"
            codeBackground := "#1e293b"
            codeForeground := "#e2e8f0"
            border := "#334155"
            link := "#93c5fd"
            linkHover := "#bfdbfe" } }
    extraCSS := some "    h1, h2, h3, h4, h5, h6 \x7b\n      font-family: var(--font-heading);\n      font-weight: 600;\n    \x7d\n" }

/-- Embeds `const PRESETS: StylePreset[]` (presets.ts line 26). -/
def PRESETS : List StylePreset := [geistProse, interUi]

/-- Embeds `listPresets()` (presets.ts line 116). -/
def listPresets : List StylePreset := PRESETS

/-- Embeds `resolvePreset(id)` (presets.ts line 120):
`PRESETS.find((preset) => preset.id === id)`. -/
def resolvePreset (id : String) : Option StylePreset :=
  PRESETS.find? (fun preset => preset.id == id)

/-- Embeds `type ThemePreference = 'auto' | 'light' | 'dark'`. -/
inductive ThemePreference where
  | auto
  | light
  | dark
  deriving DecidableEq, Repr

/-- Embeds the `colorScheme` computation in `renderHtmlDocument`
(presets.ts line 265): `theme === 'auto' ? 'light dark' : theme`. -/
def colorSchemeOf : ThemePreference → String
  | ThemePreference.auto => "light dark"
  | ThemePreference.light => "light"
  | ThemePreference.dark => "dark"

/-- Embeds `const SHARED_STYLES` (presets.ts lines 287-359), the fixed
preset-independent layout rules. -/
def SHARED_STYLES : String :=
  "    body \x7b\n      margin: 0 auto;\n      max-width: 56rem;\n      padding: 3rem 1rem 4rem;\n      background: var(--bg);\n      color: var(--fg);\n    \x7d\n    h1, h2, h3, h4, h5, h6 \x7b\n      line-height: 1.3;\n      margin-top: 2.4rem;\n      margin-bottom: 1rem;\n      font-weight: 650;\n    \x7d\n    h1 \x7b font-size: 2.5rem; \x7d\n    h2 \x7b font-size: 2rem; \x7d\n    h3 \x7b font-size: 1.5rem; \x7d\n    h4 \x7b font-size: 1.25rem; \x7d\n    p, li \x7b\n      margin-top: 0.75rem;\n      margin-bottom: 0.75rem;\n      font-size: 1rem;\n    \x7d\n    a \x7b\n      color: var(--link);\n      text-decoration: underline;\n      text-decoration-thickness: 2px;\n    \x7d\n    a:hover, a:focus \x7b\n      color: var(--link-hover);\n    \x7d\n    pre \x7b\n      background: var(--code-bg);\n      color: var(--code-fg);\n      padding: 1rem;\n      overflow: auto;\n      border-radius: 0.5rem;\n      border: 1px solid var(--border);\n    \x7d\n    code \x7b\n      font-family: var(--font-mono);\n      background: var(--code-bg);\n      color: var(--code-fg);\n      padding: 0.15rem 0.35rem;\n      border-radius: 0.35rem;\n    \x7d\n    pre code \x7b\n      padding: 0;\n      background: transparent;\n    \x7d\n    blockquote \x7b\n      margin: 1.5rem 0;\n      padding: 0.75rem 1rem;\n      border-left: 4px solid var(--border);\n      background: var(--code-bg);\n      color: var(--fg);\n      border-radius: 0 0.5rem 0.5rem 0;\n    \x7d\n    table \x7b\n      border-collapse: collapse;\n      width: 100%;\n      margin: 1.5rem 0;\n    \x7d\n    th, td \x7b\n      border: 1px solid var(--border);\n      padding: 0.5rem 0.75rem;\n      text-align: left;\n    \x7d\n    img, video \x7b\n      max-width: 100%;\n      height: auto;\n      border-radius: 0.4rem;\n    \x7d\n"

/-- The seven `--var: value;` declaration lines shared between the `:root`
block and the dark-mode media block (`buildStyles`, presets.ts lines 365-371
and 382-388).  Both blocks emit exactly these lines, in this order, differing
only in indentation and in which palette supplies the values. -/
def sevenVars (ind : String) (pal : ThemePalette) : String :=
  ind ++ "--bg: " ++ pal.background ++ ";\n" ++
  ind ++ "--fg: " ++ pal.foreground ++ ";\n" ++
  ind ++ "--code-bg: " ++ pal.codeBackground ++ ";\n" ++
  ind ++ "--code-fg: " ++ pal.codeForeground ++ ";\n" ++
  ind ++ "--border: " ++ pal.border ++ ";\n" ++
  ind ++ "--link: " ++ pal.link ++ ";\n" ++
  ind ++ "--link-hover: " ++ pal.linkHover ++ ";\n"

/-- Opening of the `:root` template literal up to and including the
`color-scheme` declaration (presets.ts lines 363-364). -/
def rootOpen (colorScheme : String) : String :=
  "    :root \x7b\n      color-scheme: " ++ colorScheme ++ ";\n"

/-- Tail of the `:root` template literal: the three font variables with their
fallbacks (`??` becomes `Option.getD`) and the closing lines
(presets.ts lines 372-377). -/
def rootFontTail (preset : StylePreset) : String :=
  "      --font-body: " ++ preset.fontFamily ++ ";\n" ++
  "      --font-heading: " ++ preset.headingFontFamily.getD preset.fontFamily ++ ";\n" ++
  "      --font-mono: " ++ preset.monoFontFamily.getD "SFMono-Regular, Menlo, Monaco, Consolas, \"Liberation Mono\", monospace" ++ ";\n" ++
  "      line-height: 1.6;\n    \x7d\n"

/-- Embeds the `rootBlock` template literal of `buildStyles`
(presets.ts lines 363-377). -/
def mkRootBlock (colorScheme : String) (basePalette : ThemePalette) (preset : StylePreset) : String :=
  rootOpen colorScheme ++ sevenVars "      " basePalette ++ rootFontTail preset

/-- Embeds the `darkBlock` template literal of `buildStyles` for the `auto`
case (presets.ts lines 380-391): the dark-mode media query re-declaring the
seven palette variables from the dark palette. -/
def mkDarkBlock (pal : ThemePalette) : String :=
  "    @media (prefers-color-scheme: dark) \x7b\n      :root \x7b\n" ++
  sevenVars "        " pal ++ "      \x7d\n    \x7d\n"

/-- Embeds the `typographyBlock` template literal of `buildStyles`
(presets.ts lines 394-403). -/
def typographyBlock : String :=
  "    body \x7b\n      font-family: var(--font-body);\n    \x7d\n    h1, h2, h3, h4, h5, h6 \x7b\n      font-family: var(--font-heading);\n    \x7d\n    code, pre code \x7b\n      font-family: var(--font-mono);\n    \x7d\n"

/-- Embeds `theme === 'dark' ? preset.palette.dark : preset.palette.light`
(presets.ts line 362). -/
def basePaletteOf (theme : ThemePreference) (preset : StylePreset) : ThemePalette :=
  if theme = ThemePreference.dark then preset.palette.dark else preset.palette.light

/-- Embeds JavaScript `Array.prototype.join(sep)`. -/
def jsJoin (sep : String) : List String → String
  | [] => ""
  | [x] => x
  | x :: xs => x ++ sep ++ jsJoin sep xs

/-- Embeds `buildStyles(theme, preset, colorScheme)` (presets.ts lines
361-408): compose root block, conditional dark block, shared styles,
typography block and `extraCSS ?? ''`, drop empty chunks, join with `'\n'`. -/
def buildStyles (theme : ThemePreference) (preset : StylePreset) (colorScheme : String) : String :=
  let basePalette := basePaletteOf theme preset
  let rootBlock := mkRootBlock colorScheme basePalette preset
  let darkBlock := if theme = ThemePreference.auto then mkDarkBlock preset.palette.dark else ""
  jsJoin "\n"
    (([rootBlock, darkBlock, SHARED_STYLES, typographyBlock, preset.extraCSS.getD ""]).filter
      (fun chunk => decide (0 < chunk.length)))

/-- The dark-mode media-query condition text, used to state that a composed
CSS document does or does not contain a dark-mode media-query block. -/
def mediaQueryNeedle : String := "@media (prefers-color-scheme: dark)"

/-- Embeds JavaScript `String.prototype.startsWith`. -/
def jsStartsWith (p s : String) : Bool := p.data.isPrefixOf s.data

/-- Embeds `Char` lowercasing as used by `toLowerCase` on the ASCII keywords
this program compares against (`light`, `dark`, `auto`). -/
def jsToLower (s : String) : String := String.mk (s.data.map Char.toLower)

/-- Embeds `parseTheme(raw)` (presets.ts lines 512-524): lowercase, accept
`light`/`dark`/`auto`/empty, otherwise throw.  The thrown `Error` becomes
`Except.error` carrying the message. -/
def parseTheme (raw : String) : Except String ThemePreference :=
  let normalized := jsToLower raw
  if normalized = "light" then Except.ok ThemePreference.light
  else if normalized = "dark" then Except.ok ThemePreference.dark
  else if normalized = "auto" ∨ normalized = "" then Except.ok ThemePreference.auto
  else Except.error "Invalid theme value. Use \"light\", \"dark\", or \"auto\"."

/-- Embeds interface `ParsedArgs` (presets.ts lines 139-146).  The `Set` of
flags becomes the two booleans `noOpen` and `useStdout`. -/
structure ParsedArgs where
  positional : List String
  noOpen : Bool
  useStdout : Bool
  theme : ThemePreference
  showHelp : Bool
  styleId : String
  listStyles : Bool
  deriving DecidableEq, Repr

/-- Embeds `const DEFAULT_STYLE_ID = 'geist-prose'`. -/
def DEFAULT_STYLE_ID : String := "geist-prose"

/-- The accumulator state at the top of `parseArguments`
(presets.ts lines 437-442). -/
def initialParsedArgs : ParsedArgs :=
  { positional := []
    noOpen := false
    useStdout := false
    theme := ThemePreference.auto
    showHelp := false
    styleId := DEFAULT_STYLE_ID
    listStyles := false }

/-- Embeds JavaScript `String.prototype.split(sep)` for a one-character
separator, on character lists: splits at every occurrence. -/
def splitOnChar (sep : Char) : List Char → List (List Char)
  | [] => [[]]
  | c :: rest =>
    match splitOnChar sep rest with
    | [] => [[]]
    | group :: groups =>
      if c = sep then [] :: group :: groups else (c :: group) :: groups

/-- `s.split(sep)` at the `String` level. -/
def jsSplit (sep : Char) (s : String) : List String :=
  (splitOnChar sep s.data).map String.mk

/-- Embeds `token.split('=')[1] ?? fallback` (presets.ts lines 473 and 488):
index 1 of the split when it exists (an empty string stays empty), the
fallback when the index is out of range. -/
def eqFlagValue (token fallbackV : String) : String :=
  (jsSplit '=' token).getD 1 fallbackV

/-- Embeds the `for` loop of `parseArguments` (presets.ts lines 444-507).
A thrown `Error` becomes `Except.error`; `index += 1` after a value-taking
flag becomes recursing on the list after the consumed value.  JavaScript's
`if (!next)` is true for a missing element and for the empty string. -/
def parseArgsLoop : List String → ParsedArgs → Except String ParsedArgs
  | [], acc => Except.ok acc
  | token :: rest, acc =>
    if token = "-h" ∨ token = "--help" then
      parseArgsLoop rest { acc with showHelp := true }
    else if token = "--no-open" then
      parseArgsLoop rest { acc with noOpen := true }
    else if token = "--stdout" then
      parseArgsLoop rest { acc with useStdout := true }
    else if token = "--list-styles" then
      parseArgsLoop rest { acc with listStyles := true }
    else if token = "--dark" then
      parseArgsLoop rest { acc with theme := ThemePreference.dark }
    else if token = "--light" then
      parseArgsLoop rest { acc with theme := ThemePreference.light }
    else if jsStartsWith "--theme=" token then
      match parseTheme (eqFlagValue token "") with
      | Except.ok th => parseArgsLoop rest { acc with theme := th }
      | Except.error e => Except.error e
    else if token = "--theme" then
      match rest with
      | [] => Except.error "Missing value for --theme. Expected \"light\" or \"dark\"."
      | next :: rest2 =>
        if next = "" then
          Except.error "Missing value for --theme. Expected \"light\" or \"dark\"."
        else
          match parseTheme next with
          | Except.ok th => parseArgsLoop rest2 { acc with theme := th }
          | Except.error e => Except.error e
    else if jsStartsWith "--style=" token then
      parseArgsLoop rest { acc with styleId := eqFlagValue token DEFAULT_STYLE_ID }
    else if token = "--style" then
      match rest with
      | [] => Except.error "Missing value for --style. Use --list-styles to inspect options."
      | next :: rest2 =>
        if next = "" then
          Except.error "Missing value for --style. Use --list-styles to inspect options."
        else parseArgsLoop rest2 { acc with styleId := next }
    else if jsStartsWith "--" token then
      Except.error ("Unknown option: " ++ token)
    else
      parseArgsLoop rest { acc with positional := acc.positional ++ [token] }

/-- Embeds `parseArguments(args)` (presets.ts line 436). -/
def parseArguments (args : List String) : Except String ParsedArgs :=
  parseArgsLoop args initialParsedArgs

/-- Embeds `HELP_TEXT` (presets.ts lines 156-167) with `DEFAULT_STYLE_ID`
interpolated. -/
def HELP_TEXT : String :=
  "Usage: markdown-render <markdown-file> [options]\n\nOptions:\n  -h, --help            Show this help message and exit.\n  --no-open             Generate the HTML file but skip launching the browser.\n  --stdout              Print the generated HTML to standard output.\n  --theme <mode>        Override auto detection with \"light\" or \"dark\".\n  --style <id>          Apply a typography/background preset (default: geist-prose).\n  --list-styles         Print available style presets and exit.\n  --light               Shortcut for \"--theme light\".\n  --dark                Shortcut for \"--theme dark\".\n"

/-- Embeds `printStyles()` output (presets.ts lines 543-547). -/
def stylesListing : String :=
  jsJoin "\n" (listPresets.map (fun p => "- " ++ p.id ++ ": " ++ p.label ++ " — " ++ p.description)) ++ "\n"

/-- Observable outcome of one CLI invocation in the model of `main`:
exit code, writes to the two streams, filesystem reads and writes attempted,
and the preset the rendering pipeline was invoked with (if it was). -/
structure MainResult where
  exitCode : Nat
  stderrOut : List String
  stdoutOut : List String
  fsReads : List String
  fsWrites : List String
  renderedWith : Option StylePreset
  deriving DecidableEq, Repr

/-- Embeds `emitError(message)` (presets.ts line 526): the line written to
stderr. -/
def emitError (message : String) : String := "Error: " ++ message ++ "\n"

/-- Embeds the control flow of `main()` (presets.ts lines 178-245) up to the
point where rendering starts.  The filesystem is the parameter `fs`
(`none` = read fails).  Abstractions, each irrelevant to the error-path
claims: `resolve()` path resolution is the identity, the underlying I/O error
text appended to the unable-to-read message is dropped, and the successful
render/output/browser steps are summarized by recording the preset passed to
the pipeline and the reads/writes performed up to that point. -/
def mainModel (args : List String) (fs : String → Option String) : MainResult :=
  match parseArguments args with
  | Except.error msg =>
    { exitCode := 1, stderrOut := [emitError msg], stdoutOut := [],
      fsReads := [], fsWrites := [], renderedWith := none }
  | Except.ok parsedArgs =>
    if parsedArgs.listStyles then
      { exitCode := 0, stderrOut := [], stdoutOut := [stylesListing],
        fsReads := [], fsWrites := [], renderedWith := none }
    else if parsedArgs.showHelp then
      { exitCode := 0, stderrOut := [], stdoutOut := [HELP_TEXT],
        fsReads := [], fsWrites := [], renderedWith := none }
    else if parsedArgs.positional.length ≠ 1 then
      { exitCode := 1, stderrOut := [emitError "Please provide exactly one markdown file."],
        stdoutOut := [HELP_TEXT], fsReads := [], fsWrites := [], renderedWith := none }
    else
      match resolvePreset parsedArgs.styleId with
      | none =>
        { exitCode := 1
          stderrOut := [emitError ("Unknown style \"" ++ parsedArgs.styleId ++ "\". Use --list-styles to see available options.")]
          stdoutOut := [], fsReads := [], fsWrites := [], renderedWith := none }
      | some preset =>
        let markdownPath := parsedArgs.positional.headD ""
        match fs markdownPath with
        | none =>
          { exitCode := 1
            stderrOut := [emitError ("Unable to read \"" ++ markdownPath ++ "\".")]
            stdoutOut := [], fsReads := [markdownPath], fsWrites := [], renderedWith := none }
        | some _markdownContent =>
          { exitCode := 0, stderrOut := [], stdoutOut := []
            fsReads := [markdownPath]
            fsWrites := if parsedArgs.useStdout then [] else ["(temp html file)"]
            renderedWith := some preset }

/-- The whitespace class of the JavaScript regex `\s` escape and of
`String.prototype.trim`: ASCII whitespace, NBSP, the Unicode space
separators, line/paragraph separators and the BOM. -/
def isJsSpace (c : Char) : Bool :=
  c == ' ' || c == '\t' || c == '\n' || c == '\r' ||
  c.val == 11 || c.val == 12 || c.val == 0xa0 || c.val == 0x1680 ||
  (decide (0x2000 ≤ c.val) && decide (c.val ≤ 0x200a)) ||
  c.val == 0x2028 || c.val == 0x2029 ||
  c.val == 0x202f || c.val == 0x205f || c.val == 0x3000 || c.val == 0xfeff

/-- The `\s+(.+)$` tail of the heading regex `/^\s*#\s+(.+)$/m`
(`deriveTitle`, presets.ts line 411), applied to the text after the `#`.
The greedy `\s+` takes the maximal whitespace run; `(.+)` then takes the
maximal run of non-newline characters, which `$` (multiline) always closes.
When nothing follows the whitespace run, `\s+` backtracks: the match
succeeds on the rightmost non-newline whitespace character at index one or
later, and the captured group is that single character. -/
def headingGroupAfterHash (l2 : List Char) : Option (List Char) :=
  let ws := l2.takeWhile isJsSpace
  let r := l2.dropWhile isJsSpace
  if ws.isEmpty then none
  else if r.isEmpty then
    match ((ws.drop 1).filter (fun c => c != '\n')).getLast? with
    | some c => some [c]
    | none => none
  else some (r.takeWhile (fun c => c != '\n'))

/-- One attempt of `/^\s*#\s+(.+)$/m` at a `^` position: skip the maximal
whitespace run (`\s*` is deterministic here because `#` is not whitespace),
require `#`, then match the tail. -/
def matchHeadingAt (l : List Char) : Option (List Char) :=
  match l.dropWhile isJsSpace with
  | c :: rest => if c = '#' then headingGroupAfterHash rest else none
  | [] => none

/-- The suffixes of the text that start just after each newline: together
with the text itself these are the `^` anchor positions of a multiline
regex. -/
def afterNewlines : List Char → List (List Char)
  | [] => []
  | c :: rest =>
    if c = '\n' then rest :: afterNewlines rest else afterNewlines rest

/-- Embeds `markdownContent.match(/^\s*#\s+(.+)$/m)?.[1]`: the captured
group of the leftmost match.  A match can only start at a `^` position, and
an earlier anchor position sees the same first non-whitespace character as
a later one, so trying the anchors left to right finds the leftmost
match. -/
def firstHeadingCapture (s : String) : Option (List Char) :=
  List.findSome? matchHeadingAt (s.data :: afterNewlines s.data)

/-- Embeds `String.prototype.trim`. -/
def jsTrimList (l : List Char) : List Char :=
  ((l.dropWhile isJsSpace).reverse.dropWhile isJsSpace).reverse

/-- POSIX `basename` step 1: ignore trailing slashes. -/
def stripTrailingSlashes (l : List Char) : List Char :=
  (l.reverse.dropWhile (fun c => c = '/')).reverse

/-- POSIX `basename` step 2: the component after the last slash. -/
def lastComponent (l : List Char) : List Char :=
  (l.reverse.takeWhile (fun c => c != '/')).reverse

/-- Embeds Node's `path.basename(p)` (posix): the last component of the
path with trailing slashes ignored; empty when the path is empty or all
slashes. -/
def posixBasename (p : String) : List Char :=
  lastComponent (stripTrailingSlashes p.data)

/-- Embeds Node's `path.extname(p)` (posix): the suffix of the basename
from its last dot, except that there is no extension when the basename has
no dot, when its only dot is the leading character (hidden files), or when
the basename is exactly `..`. -/
def posixExtname (p : String) : List Char :=
  let b := posixBasename p
  let afterDotRev := b.reverse.takeWhile (fun c => c != '.')
  if afterDotRev.length = b.length then []
  else
    let dotIdx := b.length - afterDotRev.length - 1
    if dotIdx = 0 then []
    else if b = ['.', '.'] then []
    else b.drop dotIdx

/-- Embeds `basename(sourcePath, extname(sourcePath))` (presets.ts line
416): Node strips the extension when it is a nonempty proper suffix of the
basename, which `posixExtname` always produces. -/
def baseNameNoExt (p : String) : String :=
  let b := posixBasename p
  let e := posixExtname p
  String.mk (b.take (b.length - e.length))

/-- Embeds `return baseName || 'Markdown Preview'` (presets.ts line 417). -/
def fallbackTitle (sourcePath : String) : String :=
  let baseName := baseNameNoExt sourcePath
  if baseName = "" then "Markdown Preview" else baseName

/-- Embeds `deriveTitle(markdownContent, sourcePath)` (presets.ts lines
410-418).  `if (match?.[1])` is the JavaScript truthiness test: an empty
captured group would also fall through to the basename. -/
def deriveTitle (markdownContent sourcePath : String) : String :=
  match firstHeadingCapture markdownContent with
  | some g => if g.isEmpty then fallbackTitle sourcePath else String.mk (jsTrimList g)
  | none => fallbackTitle sourcePath

/-- Formalization of claim C5's own wording, for comparison with
`deriveTitle`: the whitespace-trimmed text of the first LINE matching the
level-1 heading pattern, with the same basename/default fallbacks.  (The
code applies the regex to the whole text, where `\s` may cross line
breaks; this definition applies it line by line as the claim states.) -/
def claimFirstLineTitle (markdownContent sourcePath : String) : String :=
  match List.findSome? matchHeadingAt (splitOnChar '\n' markdownContent.data) with
  | some g => String.mk (jsTrimList g)
  | none => fallbackTitle sourcePath

/-- Embeds `loadTemplate()` (presets.ts lines 428-434) as one state
transition.  The cached promise becomes the cached `Except` result (a
rejected promise is cached just like a fulfilled one); the returned boolean
records whether this call performed the file read. -/
def loadTemplate (readResult : Except String String)
    (templateCache : Option (Except String String)) :
    Except String String × Option (Except String String) × Bool :=
  match templateCache with
  | some cached => (cached, some cached, false)
  | none => (readResult, some readResult, true)

/-- `n` successive calls of `loadTemplate` in one process: returns the list
of results seen by the callers, the final cache, and how many reads were
performed.  `fsAt k` is what the `k`-th file read (0-based) would return,
so a changing file is observable only if a second read ever happens. -/
def loadTemplateRuns (fsAt : Nat → Except String String) :
    Nat → List (Except String String) × Option (Except String String) × Nat
  | 0 => ([], none, 0)
  | n + 1 =>
    let prev := loadTemplateRuns fsAt n
    let step := loadTemplate (fsAt prev.2.2) prev.2.1
    (prev.1 ++ [step.1], step.2.1, prev.2.2 + (if step.2.2 then 1 else 0))

/-- Embeds one `value.replace(/c/g, rep)` for a single character `c`. -/
def replaceAllChar (c : Char) (rep : List Char) (l : List Char) : List Char :=
  (l.map (fun x => if x = c then rep else [x])).flatten

/-- Embeds `escapeHtml(value)` (presets.ts lines 534-541): the five chained
global replaces, innermost (`&`) first. -/
def escapeHtmlList (l : List Char) : List Char :=
  replaceAllChar (Char.ofNat 39) "&#39;".data
    (replaceAllChar '"' "&quot;".data
      (replaceAllChar '>' "&gt;".data
        (replaceAllChar '<' "&lt;".data
          (replaceAllChar '&' "&amp;".data l))))

/-- `escapeHtml` at the `String` level. -/
def escapeHtml (value : String) : String := String.mk (escapeHtmlList value.data)

/-- The simultaneous one-pass escape map, used to state that the five
sequential replaces of `escapeHtml` neither miss a character nor escape an
already-produced escape. -/
def escapeCharSpec (c : Char) : List Char :=
  if c = '&' then "&amp;".data
  else if c = '<' then "&lt;".data
  else if c = '>' then "&gt;".data
  else if c = '"' then "&quot;".data
  else if c = Char.ofNat 39 then "&#39;".data
  else [c]

/-- Embeds `code.replace(/\s+$/, '')` (presets.ts line 251): remove the
trailing whitespace run. -/
def rstripList (l : List Char) : List Char :=
  (l.reverse.dropWhile isJsSpace).reverse

/-- The lazy group and closing fence of `/```mermaid\s*([\s\S]*?)```/`:
split at the first occurrence of three backticks, returning the text before
it and the text after it; `none` when no closing fence exists (then the
regex has no match here, and no later match is possible either, since any
later `` ```mermaid `` would itself contain three backticks). -/
def splitAtTicks : List Char → Option (List Char × List Char)
  | [] => none
  | c :: rest =>
    if ("```".data).isPrefixOf (c :: rest) then some ([], (c :: rest).drop 3)
    else
      match splitAtTicks rest with
      | some (body, after) => some (c :: body, after)
      | none => none

/-- After the literal `` ```mermaid ``: the greedy `\s*` skips the maximal
whitespace run (deterministically: a backtick is not whitespace), then the
lazy group runs to the first closing ```` ``` ````. -/
def extractFence (l : List Char) : Option (List Char × List Char) :=
  splitAtTicks (l.dropWhile isJsSpace)

/-- The replacement text produced by the callback (presets.ts lines
250-252): `\n<div class="mermaid">ESCAPED</div>\n` with the fence body
right-stripped and HTML-escaped. -/
def mermaidDiv (body : List Char) : List Char :=
  "\n<div class=\"mermaid\">".data ++ escapeHtmlList (rstripList body) ++ "</div>\n".data

/-- The leftmost match of `/```mermaid\s*([\s\S]*?)```/` in the text:
`some (pre, body, after)` with `pre` the text before the match, `body` the
captured group and `after` the text after the closing fence. -/
def findFence : List Char → Option (List Char × List Char × List Char)
  | [] => none
  | c :: rest =>
    if ("```mermaid".data).isPrefixOf (c :: rest) then
      match extractFence ((c :: rest).drop 10) with
      | some (body, after) => some ([], body, after)
      | none => none
    else
      match findFence rest with
      | some (pre, body, after) => some (c :: pre, body, after)
      | none => none

/-- The iteration of the global replace: find the leftmost match, emit the
replacement, continue after the closing fence.  Each match consumes at
least the 13 characters of the two fence markers, so `fuel := length`
(supplied by `replaceMermaid`) never runs out. -/
def replaceMermaidGo : Nat → List Char → List Char × Bool
  | 0, l => (l, false)
  | fuel + 1, l =>
    match findFence l with
    | some (pre, body, after) =>
      let tailResult := replaceMermaidGo fuel after
      (pre ++ mermaidDiv body ++ tailResult.1, true)
    | none => (l, false)

/-- Embeds `markdownContent.replace(/```mermaid\s*([\s\S]*?)```/g, ...)`
together with the `mermaidDetected` flag set by the callback
(presets.ts lines 248-253). -/
def replaceMermaid (l : List Char) : List Char × Bool :=
  replaceMermaidGo l.length l

/-- Embeds interface `RenderedMarkdown` (presets.ts lines 173-176). -/
structure RenderedMarkdown where
  htmlBody : String
  mermaidDetected : Bool

/-- Embeds `renderMarkdown(markdownContent)` (presets.ts lines 247-257).
`marked.parse` is an external library, passed as the opaque function
`markedParse`. -/
def renderMarkdown (markedParse : String → String) (markdownContent : String) :
    RenderedMarkdown :=
  let processed := replaceMermaid markdownContent.data
  { htmlBody := markedParse (String.mk processed.1)
    mermaidDetected := processed.2 }

/-- `s` contains an occurrence of `needle`, stated as a split of the
character data.  Used to state whether a composed CSS document contains a
dark-mode media-query block. -/
def containsSeg (needle s : String) : Prop :=
  ∃ A B : List Char, s.data = A ++ needle.data ++ B

/-- A string append is nonempty when its left part is. -/
theorem length_pos_left (a b : String) (h : 0 < a.length) : 0 < (a ++ b).length := by
  rw [String.length_append]; omega

/-- The `:root` block is never the empty chunk, so `buildStyles` never
filters it out. -/
theorem mkRootBlock_length_pos (cs : String) (pal : ThemePalette) (p : StylePreset) :
    0 < (mkRootBlock cs pal p).length := by
  unfold mkRootBlock rootOpen
  apply length_pos_left
  apply length_pos_left
  apply length_pos_left
  apply length_pos_left
  decide

/-- The dark-mode block is never the empty chunk. -/
theorem mkDarkBlock_length_pos (pal : ThemePalette) :
    0 < (mkDarkBlock pal).length := by
  unfold mkDarkBlock
  apply length_pos_left
  apply length_pos_left
  decide

set_option maxRecDepth 100000 in
/-- Structure of `buildStyles` output: the five chunks in their fixed
order, empty chunks dropped, joined by single newlines (each chunk already
ends in a newline, so the join separator shows as a blank line). -/
theorem buildStyles_decomp (theme : ThemePreference) (preset : StylePreset) (cs : String) :
    buildStyles theme preset cs =
      mkRootBlock cs (basePaletteOf theme preset) preset ++ "\n" ++
      (if theme = ThemePreference.auto then mkDarkBlock preset.palette.dark ++ "\n" else "") ++
      SHARED_STYLES ++ "\n" ++ typographyBlock ++
      (match preset.extraCSS with
       | some extra => if 0 < extra.length then "\n" ++ extra else ""
       | none => "") := by
  have hroot := decide_eq_true (mkRootBlock_length_pos cs (basePaletteOf theme preset) preset)
  have hdark := decide_eq_true (mkDarkBlock_length_pos preset.palette.dark)
  have hshared : decide (0 < SHARED_STYLES.length) = true := by decide
  have htypo : decide (0 < typographyBlock.length) = true := by decide
  have hempty : decide (0 < ("" : String).length) = false := by decide
  unfold buildStyles
  rcases hx : preset.extraCSS with _ | extra
  · cases theme <;>
      simp only [hx, Option.getD_none, reduceCtorEq, if_pos, if_neg, ite_true, ite_false,
        reduceIte, List.filter_cons, List.filter_nil, hroot, hdark, hshared, htypo, hempty,
        jsJoin, String.append_assoc, String.append_empty, String.empty_append]
  · by_cases he : 0 < extra.length
    · have he' := decide_eq_true he
      cases theme <;>
        simp only [hx, Option.getD_some, List.filter_cons, List.filter_nil, hroot, hdark,
          hshared, htypo, hempty, he, he', if_true, ite_true, ite_false, reduceIte,
          reduceCtorEq, jsJoin, String.append_assoc, String.append_empty, String.empty_append]
    · have he' : decide (0 < extra.length) = false := decide_eq_false he
      cases theme <;>
        simp only [hx, Option.getD_some, List.filter_cons, List.filter_nil, hroot, hdark,
          hshared, htypo, hempty, he, he', if_true, ite_true, ite_false, reduceIte,
          reduceCtorEq, jsJoin, String.append_assoc, String.append_empty, String.empty_append]

set_option maxRecDepth 100000 in
/-- Claim C1: for every preset, with theme preference `auto` the composed
CSS opens with a `:root` block declaring `color-scheme: light dark` and the
seven palette variables from the preset's LIGHT palette, followed by a
dark-mode media-query block re-declaring those seven variables from the
preset's DARK palette. -/
theorem spec_C1 (preset : StylePreset) :
    colorSchemeOf ThemePreference.auto = "light dark" ∧
    ∃ tail : String,
      buildStyles ThemePreference.auto preset (colorSchemeOf ThemePreference.auto) =
        rootOpen "light dark" ++ sevenVars "      " preset.palette.light ++
        rootFontTail preset ++ "\n" ++
        "    @media (prefers-color-scheme: dark) \x7b\n      :root \x7b\n" ++
        sevenVars "        " preset.palette.dark ++ "      \x7d\n    \x7d\n" ++ tail := by
  refine ⟨rfl, ?_⟩
  refine ⟨"\n" ++ SHARED_STYLES ++ "\n" ++ typographyBlock ++
    (match preset.extraCSS with
     | some extra => if 0 < extra.length then "\n" ++ extra else ""
     | none => ""), ?_⟩
  rw [buildStyles_decomp]
  simp only [colorSchemeOf, basePaletteOf, mkRootBlock, mkDarkBlock, reduceCtorEq,
    reduceIte, ite_false, ite_true, String.append_assoc]

/-- A string that contains a segment containing `c` has at least one
occurrence of the character `c`. -/
theorem count_pos_of_seg {c : Char} {nd A B L : List Char} (hc : c ∈ nd)
    (h : L = A ++ nd ++ B) : 0 < List.count c L := by
  subst h
  simp only [List.count_append]
  have := List.count_pos_iff.mpr hc
  omega

/-- When a list both starts with `c :: ndt` and has `c :: ndt` again after
a nonempty offset `D`, the offset starts with `c`. -/
theorem seg_head_mem {c : Char} {ndt X B' D : List Char}
    (heq : (c :: ndt) ++ X = D ++ ((c :: ndt) ++ B')) (hD : D ≠ []) : c ∈ D := by
  cases D with
  | nil => exact absurd rfl hD
  | cons d D2 =>
    have : c = d := by
      have := congrArg List.head? heq
      simpa using this
    rw [this]
    exact List.mem_cons_self d D2

/-- If `c` occurs exactly once in `L`, a decomposition of `L` around a
segment beginning with `c` is unique. -/
theorem seg_unique {c : Char} {ndt L A B A' B' : List Char}
    (hcount : List.count c L = 1)
    (h : L = A ++ (c :: ndt) ++ B) (h' : L = A' ++ (c :: ndt) ++ B') :
    A' = A ∧ B' = B := by
  have hA : List.count c A = 0 ∧ List.count c B = 0 := by
    rw [h] at hcount
    simp only [List.count_append, List.count_cons_self] at hcount
    omega
  have hA' : List.count c A' = 0 ∧ List.count c B' = 0 := by
    rw [h'] at hcount
    simp only [List.count_append, List.count_cons_self] at hcount
    omega
  have hAm : c ∉ A := fun hm => by
    have := List.count_pos_iff.mpr hm; omega
  have hAm' : c ∉ A' := fun hm => by
    have := List.count_pos_iff.mpr hm; omega
  have hpreA : A <+: L := by rw [h, List.append_assoc]; exact List.prefix_append A _
  have hpreA' : A' <+: L := by rw [h', List.append_assoc]; exact List.prefix_append A' _
  have heq : A ++ ((c :: ndt) ++ B) = A' ++ ((c :: ndt) ++ B') := by
    rw [← List.append_assoc, ← List.append_assoc, ← h, ← h']
  rcases Nat.lt_trichotomy A.length A'.length with hl | hl | hl
  · exfalso
    rcases List.prefix_or_prefix_of_prefix hpreA hpreA' with hp | hp
    · obtain ⟨D, rfl⟩ := hp
      have hD : D ≠ [] := by
        intro hnil; rw [hnil, List.append_nil] at hl; omega
      have hcan : (c :: ndt) ++ B = D ++ ((c :: ndt) ++ B') := by
        rw [List.append_assoc] at heq
        exact List.append_cancel_left heq
      exact hAm' (List.mem_append_right A (seg_head_mem hcan hD))
    · obtain ⟨D, hDeq⟩ := hp
      have : A'.length ≤ A.length := by
        rw [← hDeq]; simp [List.length_append]
      omega
  · have := List.append_inj heq.symm (by omega)
    refine ⟨this.1, ?_⟩
    have h2 := this.2
    simpa using h2
  · exfalso
    rcases List.prefix_or_prefix_of_prefix hpreA' hpreA with hp | hp
    · obtain ⟨D, rfl⟩ := hp
      have hD : D ≠ [] := by
        intro hnil; rw [hnil, List.append_nil] at hl; omega
      have hcan : (c :: ndt) ++ B' = D ++ ((c :: ndt) ++ B) := by
        rw [List.append_assoc] at heq
        exact List.append_cancel_left heq.symm
      exact hAm (List.mem_append_right A' (seg_head_mem hcan hD))
    · obtain ⟨D, hDeq⟩ := hp
      have : A.length ≤ A'.length := by
        rw [← hDeq]; simp [List.length_append]
      omega

set_option maxRecDepth 100000 in
/-- For theme `auto` the composed CSS splits around the dark-mode
media-query text: everything before it, the media-query condition itself,
and everything after it. -/
theorem buildStyles_auto_media_split (preset : StylePreset) :
    (buildStyles ThemePreference.auto preset (colorSchemeOf ThemePreference.auto)).data =
      (mkRootBlock (colorSchemeOf ThemePreference.auto) (basePaletteOf ThemePreference.auto preset) preset ++ "\n" ++ "    ").data
      ++ mediaQueryNeedle.data ++
      (" \x7b\n      :root \x7b\n" ++ sevenVars "        " preset.palette.dark ++
        "      \x7d\n    \x7d\n" ++ "\n" ++ SHARED_STYLES ++ "\n" ++ typographyBlock ++
        (match preset.extraCSS with
         | some extra => if 0 < extra.length then "\n" ++ extra else ""
         | none => "")).data := by
  rw [buildStyles_decomp]
  have hsplit : ("    @media (prefers-color-scheme: dark) \x7b\n      :root \x7b\n" : String) =
      "    " ++ mediaQueryNeedle ++ " \x7b\n      :root \x7b\n" := by decide
  simp only [mkDarkBlock, hsplit, reduceIte, String.append_assoc, String.data_append,
    List.append_assoc]

set_option maxRecDepth 100000 in
/-- Claim C2: for every registered preset, the CSS composed for theme
preference `light` or `dark` contains no dark-mode media-query block (no
occurrence of the `@media (prefers-color-scheme: dark)` condition), and the
CSS composed for `auto` contains exactly one such block (an occurrence
exists and its decomposition is unique). -/
theorem spec_C2 : ∀ preset ∈ PRESETS,
    ¬ containsSeg mediaQueryNeedle
        (buildStyles ThemePreference.light preset (colorSchemeOf ThemePreference.light)) ∧
    ¬ containsSeg mediaQueryNeedle
        (buildStyles ThemePreference.dark preset (colorSchemeOf ThemePreference.dark)) ∧
    (∃ A B : List Char,
      (buildStyles ThemePreference.auto preset (colorSchemeOf ThemePreference.auto)).data =
        A ++ mediaQueryNeedle.data ++ B ∧
      ∀ A' B' : List Char,
        (buildStyles ThemePreference.auto preset (colorSchemeOf ThemePreference.auto)).data =
          A' ++ mediaQueryNeedle.data ++ B' → A' = A ∧ B' = B) := by
  have hat : '@' ∈ mediaQueryNeedle.data := by decide
  have hneedle : mediaQueryNeedle.data =
      '@' :: ("media (prefers-color-scheme: dark)" : String).data := by decide
  intro preset hmem
  have hseg := buildStyles_auto_media_split preset
  have hmem2 : preset = geistProse ∨ preset = interUi := by
    simpa [PRESETS] using hmem
  have hl : List.count '@'
      (buildStyles ThemePreference.light preset (colorSchemeOf ThemePreference.light)).data = 0 := by
    rcases hmem2 with rfl | rfl <;>
      (rw [buildStyles_decomp]; simp only [String.data_append, List.count_append]; decide)
  have hd : List.count '@'
      (buildStyles ThemePreference.dark preset (colorSchemeOf ThemePreference.dark)).data = 0 := by
    rcases hmem2 with rfl | rfl <;>
      (rw [buildStyles_decomp]; simp only [String.data_append, List.count_append]; decide)
  have ha : List.count '@'
      (buildStyles ThemePreference.auto preset (colorSchemeOf ThemePreference.auto)).data = 1 := by
    rcases hmem2 with rfl | rfl <;>
      (rw [buildStyles_decomp]; simp only [String.data_append, List.count_append]; decide)
  refine ⟨?_, ?_, ?_⟩
  · rintro ⟨A, B, hAB⟩
    have := count_pos_of_seg hat hAB
    omega
  · rintro ⟨A, B, hAB⟩
    have := count_pos_of_seg hat hAB
    omega
  · refine ⟨_, _, hseg, ?_⟩
    intro A' B' hother
    rw [hneedle] at hseg hother
    exact seg_unique ha hseg hother

set_option maxRecDepth 100000 in
/-- Claim C3: for every theme preference and preset the composed CSS is
exactly the concatenation, in fixed order, of the `:root` block, the
dark-mode block (present only for `auto`), the shared layout rules, the
typography rules, and the preset's `extraCSS` verbatim when present and
nonempty; empty blocks are omitted entirely, and the surviving blocks are
joined with a newline, which reads as a blank-line separator since every
block already ends with a newline. -/
theorem spec_C3 (theme : ThemePreference) (preset : StylePreset) (cs : String) :
    buildStyles theme preset cs =
      mkRootBlock cs (basePaletteOf theme preset) preset ++ "\n" ++
      (if theme = ThemePreference.auto then mkDarkBlock preset.palette.dark ++ "\n" else "") ++
      SHARED_STYLES ++ "\n" ++ typographyBlock ++
      (match preset.extraCSS with
       | some extra => if 0 < extra.length then "\n" ++ extra else ""
       | none => "") :=
  buildStyles_decomp theme preset cs

set_option maxRecDepth 100000 in
/-- Claim C4: `resolvePreset` is a case-sensitive exact-id lookup: for
every registered preset it round-trips (`resolvePreset p.id = some p`), and
for every string equal to no registered id it returns `none` — it is a
total function returning absence, never an exception. -/
theorem spec_C4 :
    (∀ preset ∈ PRESETS, resolvePreset preset.id = some preset) ∧
    (∀ s : String, (∀ preset ∈ PRESETS, preset.id ≠ s) → resolvePreset s = none) := by
  constructor
  · decide
  · intro s h
    have hg : (geistProse.id == s) = false :=
      beq_eq_false_iff_ne.mpr (h geistProse (by simp [PRESETS]))
    have hi : (interUi.id == s) = false :=
      beq_eq_false_iff_ne.mpr (h interUi (by simp [PRESETS]))
    simp [resolvePreset, PRESETS, List.find?, hg, hi]

set_option maxRecDepth 100000 in
/-- Witness for C4 at concrete inputs. -/
theorem spec_C4_witness :
    resolvePreset "geist-prose" = some geistProse ∧ resolvePreset "unknown-id" = none := by
  constructor
  · exact spec_C4.1 geistProse (by simp [PRESETS])
  · exact spec_C4.2 "unknown-id" (by decide)

/-- Lowercasing keeps a string nonempty. -/
theorem jsToLower_ne_empty {s : String} (h : s ≠ "") : jsToLower s ≠ "" := by
  intro hlow
  apply h
  unfold jsToLower at hlow
  have : s.data.map Char.toLower = [] := congrArg String.data hlow
  have hnil : s.data = [] := List.map_eq_nil_iff.mp this
  exact String.ext hnil

/-- Claim C9: `parseTheme` lowercases its input before matching: any
casing of `light`/`dark` is accepted, any casing of `auto` and the empty
string produce `auto` (so `--theme=` with an empty value parses as `auto`
rather than failing), and every other string raises the invalid-theme
error. -/
theorem spec_C9 (s : String) :
    (jsToLower s = "light" → parseTheme s = Except.ok ThemePreference.light) ∧
    (jsToLower s = "dark" → parseTheme s = Except.ok ThemePreference.dark) ∧
    (jsToLower s = "auto" ∨ s = "" → parseTheme s = Except.ok ThemePreference.auto) ∧
    (jsToLower s ≠ "light" → jsToLower s ≠ "dark" → jsToLower s ≠ "auto" → s ≠ "" →
      parseTheme s = Except.error "Invalid theme value. Use \"light\", \"dark\", or \"auto\".") ∧
    (∃ pa, parseArguments ["--theme=", "doc.md"] = Except.ok pa ∧
      pa.theme = ThemePreference.auto) := by
  refine ⟨?_, ?_, ?_, ?_, ?_⟩
  · intro h; simp [parseTheme, h]
  · intro h; simp [parseTheme, h]
  · rintro (h | h)
    · simp [parseTheme, h]
    · subst h; rfl
  · intro h1 h2 h3 h4
    have h5 := jsToLower_ne_empty h4
    simp [parseTheme, h1, h2, h3, h5]
  · exact ⟨_, rfl, rfl⟩

/-- Witness for C9 at concrete inputs. -/
theorem spec_C9_witness :
    parseTheme "LiGhT" = Except.ok ThemePreference.light ∧
    parseTheme "DARK" = Except.ok ThemePreference.dark ∧
    parseTheme "" = Except.ok ThemePreference.auto ∧
    parseTheme "sideways" = Except.error "Invalid theme value. Use \"light\", \"dark\", or \"auto\"." := by
  refine ⟨(spec_C9 "LiGhT").1 (by decide), (spec_C9 "DARK").2.1 (by decide),
    (spec_C9 "").2.2.1 (Or.inr rfl), (spec_C9 "sideways").2.2.2.1 (by decide) (by decide) (by decide) (by decide)⟩

/-- Claim C8: the template cache is idempotent process-wide state.  Over
any positive number of `loadTemplate` calls, exactly one file read happens,
every call returns the first read's result (even if the underlying file
changes between calls, which `fsAt` models), and the cache permanently
holds that first result.  A call that finds the cache filled returns the
cached value without reading; a call that finds it empty performs the
read. -/
theorem spec_C8 (fsAt : Nat → Except String String) (n : Nat) (h : 0 < n) :
    (loadTemplateRuns fsAt n).1 = List.replicate n (fsAt 0) ∧
    (loadTemplateRuns fsAt n).2.1 = some (fsAt 0) ∧
    (loadTemplateRuns fsAt n).2.2 = 1 ∧
    (∀ readResult cached, loadTemplate readResult (some cached) = (cached, some cached, false)) ∧
    (∀ readResult, loadTemplate readResult none = (readResult, some readResult, true)) := by
  have main : (loadTemplateRuns fsAt n).1 = List.replicate n (fsAt 0) ∧
      (loadTemplateRuns fsAt n).2.1 = some (fsAt 0) ∧
      (loadTemplateRuns fsAt n).2.2 = 1 := by
    induction n with
    | zero => omega
    | succ m ih =>
      rcases Nat.eq_zero_or_pos m with h0 | hm
      · subst h0
        simp [loadTemplateRuns, loadTemplate]
      · obtain ⟨h1, h2, h3⟩ := ih hm
        simp [loadTemplateRuns, loadTemplate, h1, h2, h3, List.replicate_succ']
  exact ⟨main.1, main.2.1, main.2.2, fun _ _ => rfl, fun _ => rfl⟩

/-- Witness for C8: three calls against a template file that changes
after the first read still all see the first read, with one read total. -/
theorem spec_C8_witness :
    0 < 3 ∧
    (loadTemplateRuns (fun k => if k = 0 then Except.ok "TEMPLATE" else Except.error "changed") 3).1 =
      List.replicate 3 (Except.ok "TEMPLATE") ∧
    (loadTemplateRuns (fun k => if k = 0 then Except.ok "TEMPLATE" else Except.error "changed") 3).2.2 = 1 := by
  have h := spec_C8 (fun k => if k = 0 then Except.ok "TEMPLATE" else Except.error "changed") 3 (by decide)
  exact ⟨by decide, by simpa using h.1, h.2.2.1⟩

/-- The head surviving `dropWhile` fails the predicate. -/
theorem dropWhile_head_false {p : Char → Bool} :
    ∀ {l x : List Char} {c : Char}, l.dropWhile p = c :: x → p c = false := by
  intro l
  induction l with
  | nil => intro x c h; simp [List.dropWhile] at h
  | cons a as ih =>
    intro x c h
    by_cases hp : p a
    · rw [List.dropWhile_cons_of_pos hp] at h
      exact ih h
    · rw [List.dropWhile_cons_of_neg hp] at h
      cases h
      exact eq_false_of_ne_true hp

/-- A successful heading match captures a nonempty group (`(.+)` matches
at least one character), which is why the truthiness test in `deriveTitle`
can never see an empty captured group. -/
theorem matchHeadingAt_ne_nil {l g : List Char} (h : matchHeadingAt l = some g) : g ≠ [] := by
  unfold matchHeadingAt at h
  rcases hd : l.dropWhile isJsSpace with _ | ⟨c, rest⟩
  · rw [hd] at h; exact absurd h (by simp)
  · rw [hd] at h
    dsimp only at h
    by_cases hc : c = '#'
    · rw [if_pos hc] at h
      unfold headingGroupAfterHash at h
      by_cases hws : (rest.takeWhile isJsSpace).isEmpty
      · rw [if_pos hws] at h; exact absurd h (by simp)
      · rw [if_neg hws] at h
        by_cases hr : (rest.dropWhile isJsSpace).isEmpty
        · rw [if_pos hr] at h
          rcases hlast : (((rest.takeWhile isJsSpace).drop 1).filter (fun c => c != '\n')).getLast? with _ | c2
          · rw [hlast] at h; exact absurd h (by simp)
          · rw [hlast] at h
            cases h
            simp
        · rw [if_neg hr] at h
          rcases hdrop : rest.dropWhile isJsSpace with _ | ⟨r0, rs⟩
          · rw [hdrop] at hr; simp at hr
          · have hr0 : isJsSpace r0 = false := dropWhile_head_false hdrop
            have hr0n : (r0 != '\n') = true := by
              rcases hn : r0 == '\n' with _ | _
              · simp [bne, hn]
              · exfalso
                have : r0 = '\n' := eq_of_beq hn
                rw [this] at hr0
                simp [isJsSpace] at hr0
            cases h
            rw [hdrop, List.takeWhile_cons, hr0n]
            simp
    · rw [if_neg hc] at h; exact absurd h (by simp)

/-- The captured group of the leftmost heading match is nonempty. -/
theorem firstHeadingCapture_ne_nil {s : String} {g : List Char}
    (h : firstHeadingCapture s = some g) : g ≠ [] := by
  unfold firstHeadingCapture at h
  obtain ⟨l, _, hl⟩ := List.exists_of_findSome?_eq_some h
  exact matchHeadingAt_ne_nil hl

/-- Claim C5 as amended: the derived title is the whitespace-trimmed
captured group of the first match of the multiline heading regex
`/^\s*#\s+(.+)$/m` — whose whitespace may span line breaks, so the title
can come from a line after a bare `#` — and otherwise the source file's
base name with its extension stripped, and otherwise (empty base name) the
fixed default `Markdown Preview`.  The claim's concrete examples hold:
`# Hello World` titles `Hello World`, no heading with path `notes.md`
titles `notes`, and an empty path titles `Markdown Preview`. -/
theorem spec_C5 (markdownContent sourcePath : String) :
    (∀ g, firstHeadingCapture markdownContent = some g →
      deriveTitle markdownContent sourcePath = String.mk (jsTrimList g)) ∧
    (firstHeadingCapture markdownContent = none → baseNameNoExt sourcePath ≠ "" →
      deriveTitle markdownContent sourcePath = baseNameNoExt sourcePath) ∧
    (firstHeadingCapture markdownContent = none → baseNameNoExt sourcePath = "" →
      deriveTitle markdownContent sourcePath = "Markdown Preview") ∧
    deriveTitle "# Hello World" "doc.md" = "Hello World" ∧
    deriveTitle "no heading here" "notes.md" = "notes" ∧
    deriveTitle "no heading here" "" = "Markdown Preview" := by
  refine ⟨?_, ?_, ?_, by decide, by decide, by decide⟩
  · intro g hg
    have hne := firstHeadingCapture_ne_nil hg
    unfold deriveTitle
    rw [hg]
    simp [List.isEmpty_iff, hne]
  · intro hnone hbase
    unfold deriveTitle fallbackTitle
    rw [hnone]
    simp [hbase]
  · intro hnone hbase
    unfold deriveTitle fallbackTitle
    rw [hnone]
    simp [hbase]

/-- Counterexample to claim C5 as stated: on `#\nhello` no LINE matches
the level-1 heading pattern, so the claim's first-line reading falls back
to the basename `notes`, but the code's multiline regex lets `\s+` cross
the line break and derives the title `hello`. -/
theorem spec_C5_counterexample :
    deriveTitle "#\nhello" "notes.md" = "hello" ∧
    claimFirstLineTitle "#\nhello" "notes.md" = "notes" ∧
    deriveTitle "#\nhello" "notes.md" ≠ claimFirstLineTitle "#\nhello" "notes.md" := by
  refine ⟨by decide, by decide, by decide⟩

/-- Witness for C5 (amended) at a concrete input with a heading. -/
theorem spec_C5_witness :
    deriveTitle "intro\n  # My Title  " "doc.md" = "My Title" := by
  have h := (spec_C5 "intro\n  # My Title  " "doc.md").1 "My Title  ".data (by decide)
  exact h.trans (by decide)

/-- Claim C7: for any theme value the parser rejects (its lowercasing is
none of `light`, `dark`, `auto` and it is nonempty), the process exits with
status 1 and writes the `Invalid theme value` error line, with no
filesystem access: the outcome is one fixed record — independent of the
filesystem `fs` — whose `fsReads` and `fsWrites` are empty. -/
theorem spec_C7 (v : String) (rest : List String) (fs : String → Option String)
    (h1 : jsToLower v ≠ "light") (h2 : jsToLower v ≠ "dark")
    (h3 : jsToLower v ≠ "auto") (h4 : v ≠ "") :
    mainModel ("--theme" :: v :: rest) fs =
      { exitCode := 1
        stderrOut := [emitError "Invalid theme value. Use \"light\", \"dark\", or \"auto\"."]
        stdoutOut := []
        fsReads := []
        fsWrites := []
        renderedWith := none } := by
  have h5 := jsToLower_ne_empty h4
  have hpt : parseTheme v =
      Except.error "Invalid theme value. Use \"light\", \"dark\", or \"auto\"." := by
    simp [parseTheme, h1, h2, h3, h5]
  have hsw : jsStartsWith "--theme=" "--theme" = false := by decide
  have hparse : parseArguments ("--theme" :: v :: rest) =
      Except.error "Invalid theme value. Use \"light\", \"dark\", or \"auto\"." := by
    unfold parseArguments
    simp [parseArgsLoop, hsw, hpt, h4]
  unfold mainModel
  rw [hparse]

/-- Witness for C7 at `--theme sideways`. -/
theorem spec_C7_witness :
    mainModel ["--theme", "sideways", "doc.md"] (fun _ => some "# hi") =
      { exitCode := 1
        stderrOut := [emitError "Invalid theme value. Use \"light\", \"dark\", or \"auto\"."]
        stdoutOut := []
        fsReads := []
        fsWrites := []
        renderedWith := none } :=
  spec_C7 "sideways" ["doc.md"] (fun _ => some "# hi")
    (by decide) (by decide) (by decide) (by decide)

/-- Whatever arguments and filesystem the CLI model runs with, the
rendering pipeline is only ever invoked with a preset from the catalog:
`renderedWith` is either `none` or a member of `PRESETS`. -/
theorem renderedWith_mem {args : List String} {fs : String → Option String} {q : StylePreset}
    (hq : (mainModel args fs).renderedWith = some q) : q ∈ PRESETS := by
  unfold mainModel at hq
  rcases hp : parseArguments args with msg | pa <;> rw [hp] at hq
  · simp at hq
  · by_cases hls : pa.listStyles
    · simp [hls] at hq
    · by_cases hsh : pa.showHelp
      · simp [hls, hsh] at hq
      · by_cases hlen : pa.positional.length ≠ 1
        · simp [hls, hsh, hlen] at hq
        · rcases hr : resolvePreset pa.styleId with _ | preset <;>
            simp only [hls, hsh, hlen, hr, if_false, if_true, ite_false, ite_true,
              Bool.false_eq_true, reduceIte] at hq
          · simp at hq
          · rcases hf : fs (pa.positional.headD "") with _ | md <;> rw [hf] at hq
            · simp at hq
            · simp at hq
              subst hq
              exact List.mem_of_find?_eq_some hr

/-- Claim C6: when an otherwise well-formed invocation names a style id
that resolves to no preset, the process exits with status 1 and writes the
unknown-style error, which mentions `--list-styles`; no file is read or
written, the rendering pipeline is not invoked (`renderedWith = none`),
and — for any invocation whatsoever — the pipeline is never invoked with a
preset outside the catalog. -/
theorem spec_C6 (args : List String) (parsedArgs : ParsedArgs) (fs : String → Option String)
    (hparse : parseArguments args = Except.ok parsedArgs)
    (hlist : parsedArgs.listStyles = false)
    (hhelp : parsedArgs.showHelp = false)
    (hpos : parsedArgs.positional.length = 1)
    (hstyle : resolvePreset parsedArgs.styleId = none) :
    mainModel args fs =
      { exitCode := 1
        stderrOut := [emitError ("Unknown style \"" ++ parsedArgs.styleId ++
          "\". Use --list-styles to see available options.")]
        stdoutOut := []
        fsReads := []
        fsWrites := []
        renderedWith := none } ∧
    (∃ before after : String,
      emitError ("Unknown style \"" ++ parsedArgs.styleId ++
        "\". Use --list-styles to see available options.") =
        before ++ "--list-styles" ++ after) ∧
    (∀ (args2 : List String) (fs2 : String → Option String) (q : StylePreset),
      (mainModel args2 fs2).renderedWith = some q → q ∈ PRESETS) := by
  refine ⟨?_, ?_, fun args2 fs2 q hq => renderedWith_mem hq⟩
  · unfold mainModel
    rw [hparse]
    simp [hlist, hhelp, hpos, hstyle]
  · refine ⟨"Error: " ++ ("Unknown style \"" ++ (parsedArgs.styleId ++ "\". Use ")),
      " to see available options." ++ "\n", ?_⟩
    have hsplit : ("\". Use --list-styles to see available options." : String) =
        "\". Use " ++ "--list-styles" ++ " to see available options." := by decide
    simp only [emitError, String.append_assoc]
    rw [show ("Unknown style \"" ++ (parsedArgs.styleId ++ ("\". Use --list-styles to see available options." ++ "\n")) : String) =
      "Unknown style \"" ++ (parsedArgs.styleId ++ (("\". Use " ++ "--list-styles" ++ " to see available options.") ++ "\n")) from by rw [← hsplit]]
    simp [String.append_assoc]

/-- Witness for C6 at `--style unknown-id` with one markdown file. -/
theorem spec_C6_witness :
    mainModel ["doc.md", "--style", "unknown-id"] (fun _ => some "# hi") =
      { exitCode := 1
        stderrOut := [emitError ("Unknown style \"" ++ "unknown-id" ++
          "\". Use --list-styles to see available options.")]
        stdoutOut := []
        fsReads := []
        fsWrites := []
        renderedWith := none } := by
  have h := spec_C6 ["doc.md", "--style", "unknown-id"]
    { positional := ["doc.md"], noOpen := false, useStdout := false,
      theme := ThemePreference.auto, showHelp := false, styleId := "unknown-id",
      listStyles := false }
    (fun _ => some "# hi") rfl rfl rfl rfl (by decide)
  exact h.1

/-- Witness for C2 at the `geist-prose` preset. -/
theorem spec_C2_witness :
    geistProse ∈ PRESETS ∧
    ¬ containsSeg mediaQueryNeedle
        (buildStyles ThemePreference.light geistProse (colorSchemeOf ThemePreference.light)) := by
  have hm : geistProse ∈ PRESETS := by simp [PRESETS]
  exact ⟨hm, (spec_C2 geistProse hm).1⟩

/-- A successful closing-fence split consumes the three backticks, so the
remainder is shorter by at least 3. -/
theorem splitAtTicks_length :
    ∀ {l b a : List Char}, splitAtTicks l = some (b, a) → a.length + 3 ≤ l.length := by
  intro l
  induction l with
  | nil => intro b a h; simp [splitAtTicks] at h
  | cons c rest ih =>
    intro b a h
    unfold splitAtTicks at h
    by_cases hp : ("```".data).isPrefixOf (c :: rest) = true
    · rw [if_pos hp] at h
      obtain ⟨rfl, rfl⟩ : b = [] ∧ a = (c :: rest).drop 3 := by
        cases h; exact ⟨rfl, rfl⟩
      have hpre : ("```".data) <+: (c :: rest) := List.isPrefixOf_iff_prefix.mp hp
      have hlen : 3 ≤ (c :: rest).length := by
        have := hpre.length_le
        simpa using this
      simp only [List.length_drop, List.length_cons] at hlen ⊢
      omega
    · rw [if_neg hp] at h
      rcases hs : splitAtTicks rest with _ | ⟨b2, a2⟩ <;> rw [hs] at h
      · exact absurd h (by simp)
      · obtain ⟨rfl, rfl⟩ : b = c :: b2 ∧ a = a2 := by
          cases h; exact ⟨rfl, rfl⟩
        have := ih hs
        simp
        omega

/-- A successful match consumes both fence markers, so the text after the
match is shorter by at least 13 characters. -/
theorem findFence_length :
    ∀ {l pre body after : List Char},
      findFence l = some (pre, body, after) → after.length + 13 ≤ l.length := by
  intro l
  induction l with
  | nil => intro pre body after h; simp [findFence] at h
  | cons c rest ih =>
    intro pre body after h
    unfold findFence at h
    by_cases hp : ("```mermaid".data).isPrefixOf (c :: rest) = true
    · rw [if_pos hp] at h
      rcases he : extractFence ((c :: rest).drop 10) with _ | ⟨body2, after2⟩ <;> rw [he] at h
      · exact absurd h (by simp)
      · obtain ⟨rfl, rfl, rfl⟩ : pre = [] ∧ body = body2 ∧ after = after2 := by
          cases h; exact ⟨rfl, rfl, rfl⟩
        unfold extractFence at he
        have h3 := splitAtTicks_length he
        have hdw : (((c :: rest).drop 10).dropWhile isJsSpace).length ≤ ((c :: rest).drop 10).length :=
          List.Sublist.length_le (List.dropWhile_sublist _)
        have hd : ((c :: rest).drop 10).length = (c :: rest).length - 10 := List.length_drop 10 _
        have hpre : ("```mermaid".data) <+: (c :: rest) := List.isPrefixOf_iff_prefix.mp hp
        have hlen : 10 ≤ (c :: rest).length := by
          have := hpre.length_le
          simpa using this
        simp only [List.length_cons] at hd hlen ⊢
        omega
    · rw [if_neg hp] at h
      rcases hs : findFence rest with _ | ⟨pre2, body2, after2⟩ <;> rw [hs] at h
      · exact absurd h (by simp)
      · obtain ⟨rfl, rfl, rfl⟩ : pre = c :: pre2 ∧ body = body2 ∧ after = after2 := by
          cases h; exact ⟨rfl, rfl, rfl⟩
        have := ih hs
        simp
        omega

/-- Any sufficient fuel computes the same result as `replaceMermaid`:
each iteration shortens the text by at least 13 characters, so
`fuel = length` never runs out. -/
theorem replaceMermaidGo_norm :
    ∀ (fuel : Nat) (l : List Char), l.length ≤ fuel →
      replaceMermaidGo fuel l = replaceMermaid l := by
  intro fuel
  induction fuel using Nat.strong_induction_on with
  | _ fuel ih =>
    intro l hl
    match fuel, l with
    | 0, l =>
      have : l = [] := List.eq_nil_of_length_eq_zero (Nat.le_zero.mp hl)
      subst this
      rfl
    | n + 1, [] =>
      simp [replaceMermaid, replaceMermaidGo, findFence]
    | n + 1, c :: rest =>
      show replaceMermaidGo (n + 1) (c :: rest) =
        replaceMermaidGo (c :: rest).length (c :: rest)
      rcases hf : findFence (c :: rest) with _ | ⟨pre, body, after⟩
      · rw [show (c :: rest).length = rest.length + 1 from rfl]
        unfold replaceMermaidGo
        rw [hf]
      · have hb := findFence_length hf
        have h1 : after.length ≤ n := by
          simp only [List.length_cons] at hb hl
          omega
        have h2 : after.length ≤ rest.length := by
          simp only [List.length_cons] at hb
          omega
        rw [show (c :: rest).length = rest.length + 1 from rfl]
        unfold replaceMermaidGo
        rw [hf]
        have e1 : replaceMermaidGo n after = replaceMermaid after :=
          ih n (by omega) after h1
        have e2 : replaceMermaidGo rest.length after = replaceMermaid after :=
          ih rest.length (by simp only [List.length_cons] at hl; omega) after h2
        dsimp only
        rw [e1, e2]

/-- The `mermaidDetected` flag is exactly "the text has a complete
mermaid fence": `findFence` succeeds. -/
theorem replaceMermaid_flag (l : List Char) :
    (replaceMermaid l).2 = (findFence l).isSome := by
  unfold replaceMermaid
  cases l with
  | nil => simp [replaceMermaidGo, findFence]
  | cons c rest =>
    rw [show (c :: rest).length = rest.length + 1 from rfl]
    unfold replaceMermaidGo
    rcases hf : findFence (c :: rest) with _ | ⟨pre, body, after⟩ <;> simp

/-- Without a complete mermaid fence the text passes through verbatim and
the detection flag stays false. -/
theorem replaceMermaid_no_fence {l : List Char} (h : findFence l = none) :
    replaceMermaid l = (l, false) := by
  unfold replaceMermaid
  cases l with
  | nil => rfl
  | cons c rest =>
    rw [show (c :: rest).length = rest.length + 1 from rfl]
    unfold replaceMermaidGo
    rw [h]

/-- The general step of the global replace, with no condition on the input:
whenever the leftmost-match search succeeds — whatever text precedes the
match and whatever the captured body holds — the match is replaced by the
`<div class="mermaid">` element and the replace continues with the text
after the closing fence. -/
theorem replaceMermaid_found {l pre body after : List Char}
    (h : findFence l = some (pre, body, after)) :
    replaceMermaid l = (pre ++ mermaidDiv body ++ (replaceMermaid after).1, true) := by
  cases l with
  | nil => simp [findFence] at h
  | cons c rest =>
    have hlen := findFence_length h
    have hle : after.length ≤ rest.length := by
      simp only [List.length_cons] at hlen
      omega
    conv_lhs => rw [replaceMermaid, show (c :: rest).length = rest.length + 1 from rfl,
      replaceMermaidGo]
    rw [h]
    dsimp only
    rw [replaceMermaidGo_norm rest.length after hle]

/-- The lazy group stops at the first closing fence: with no backtick in
`body`, the split returns exactly `body` and the text after the fence. -/
theorem splitAtTicks_at_close (body post : List Char) (hbody : '`' ∉ body) :
    splitAtTicks (body ++ "```".data ++ post) = some (body, post) := by
  induction body with
  | nil =>
    have hexp : "```".data = '`' :: '`' :: '`' :: [] := rfl
    rw [List.nil_append, hexp]
    simp only [List.cons_append, List.nil_append]
    unfold splitAtTicks
    rw [if_pos (by simp [List.isPrefixOf, hexp])]
    simp
  | cons b bs ih =>
    have hb : b ≠ '`' := fun h => hbody (h ▸ List.mem_cons_self b bs)
    have hbs : '`' ∉ bs := fun h => hbody (List.mem_cons_of_mem b h)
    simp only [List.cons_append]
    unfold splitAtTicks
    rw [if_neg ?hneg]
    case hneg =>
      have hexp : "```".data = '`' :: '`' :: '`' :: [] := rfl
      simp [hexp, List.isPrefixOf, Ne.symm hb]
    rw [ih hbs]

/-- Greedy `\s*` consumes exactly the whitespace run when what follows
starts with a non-whitespace character. -/
theorem dropWhile_skip_ws (ws rest : List Char) (hws : ∀ c ∈ ws, isJsSpace c = true)
    (hrest : ∀ c, rest.head? = some c → isJsSpace c = false) :
    List.dropWhile isJsSpace (ws ++ rest) = rest := by
  have h1 : List.dropWhile isJsSpace ws = [] := by
    rw [List.dropWhile_eq_nil_iff]
    exact fun x hx => hws x hx
  rw [List.dropWhile_append, h1]
  simp only [List.isEmpty_nil, if_true]
  cases rest with
  | nil => rfl
  | cons r rs =>
    exact List.dropWhile_cons_of_neg (by simp [hrest r rfl])

/-- `extractFence` on whitespace, a backtick-free body and a closing
fence captures exactly the body. -/
theorem extractFence_at (ws body post : List Char)
    (hws : ∀ c ∈ ws, isJsSpace c = true)
    (hbody1 : body.head?.all (fun c => !(isJsSpace c)) = true)
    (hbody2 : '`' ∉ body) :
    extractFence (ws ++ body ++ "```".data ++ post) = some (body, post) := by
  unfold extractFence
  have hdrop : List.dropWhile isJsSpace (ws ++ (body ++ "```".data ++ post)) =
      body ++ "```".data ++ post := by
    apply dropWhile_skip_ws _ _ hws
    intro c hc
    cases body with
    | nil =>
      simp only [List.nil_append] at hc
      have : c = '`' := by
        have := hc
        simp at this
        exact this.symm
      subst this
      decide
    | cons b bs =>
      simp only [List.cons_append, List.head?_cons, Option.some.injEq] at hc
      subst hc
      simpa using hbody1
  simp only [List.append_assoc] at hdrop ⊢
  rw [hdrop]
  have hclose := splitAtTicks_at_close body post hbody2
  simp only [List.append_assoc] at hclose
  exact hclose

/-- `findFence` at the start of a well-formed mermaid fence matches it
with an empty prefix. -/
theorem findFence_at_fence (ws body post : List Char)
    (hws : ∀ c ∈ ws, isJsSpace c = true)
    (hbody1 : body.head?.all (fun c => !(isJsSpace c)) = true)
    (hbody2 : '`' ∉ body) :
    findFence ("```mermaid".data ++ (ws ++ body ++ "```".data ++ post)) =
      some ([], body, post) := by
  have hexp : "```mermaid".data =
      '`' :: '`' :: '`' :: 'm' :: 'e' :: 'r' :: 'm' :: 'a' :: 'i' :: 'd' :: [] := rfl
  rw [hexp]
  simp only [List.cons_append, List.nil_append]
  unfold findFence
  rw [if_pos ?hpre]
  case hpre => simp [List.isPrefixOf]
  rw [show ∀ r : List Char,
      ('`' :: '`' :: '`' :: 'm' :: 'e' :: 'r' :: 'm' :: 'a' :: 'i' :: 'd' :: r).drop 10 = r
      from fun r => rfl]
  have he := extractFence_at ws body post hws hbody1 hbody2
  simp only [List.append_assoc] at he ⊢
  rw [he]

/-- A character other than a backtick cannot start a match, so the search
steps over it. -/
theorem findFence_cons_of_ne (c : Char) (rest : List Char) (hc : c ≠ '`') :
    findFence (c :: rest) =
      match findFence rest with
      | some (pre, body, after) => some (c :: pre, body, after)
      | none => none := by
  conv_lhs => rw [findFence]
  rw [if_neg ?hne]
  case hne =>
    have hexp : "```mermaid".data =
        '`' :: '`' :: '`' :: 'm' :: 'e' :: 'r' :: 'm' :: 'a' :: 'i' :: 'd' :: [] := rfl
    simp [hexp, List.isPrefixOf, Ne.symm hc]

/-- The leftmost match of the mermaid-fence pattern after a backtick-free
prefix is the explicit fence. -/
theorem findFence_with_prefix (pre : List Char) (hpre : '`' ∉ pre)
    (ws body post : List Char)
    (hws : ∀ c ∈ ws, isJsSpace c = true)
    (hbody1 : body.head?.all (fun c => !(isJsSpace c)) = true)
    (hbody2 : '`' ∉ body) :
    findFence (pre ++ "```mermaid".data ++ ws ++ body ++ "```".data ++ post) =
      some (pre, body, post) := by
  induction pre with
  | nil =>
    simp only [List.nil_append]
    have h := findFence_at_fence ws body post hws hbody1 hbody2
    simp only [List.append_assoc] at h ⊢
    exact h
  | cons p ps ih =>
    have hp : p ≠ '`' := fun h => hpre (h ▸ List.mem_cons_self p ps)
    have hps : '`' ∉ ps := fun h => hpre (List.mem_cons_of_mem p h)
    simp only [List.cons_append]
    rw [findFence_cons_of_ne p _ hp]
    have h2 := ih hps
    simp only [List.cons_append] at h2 ⊢
    rw [h2]

/-- A single-character global replace distributes over concatenation. -/
theorem replaceAllChar_append (c : Char) (rep a b : List Char) :
    replaceAllChar c rep (a ++ b) = replaceAllChar c rep a ++ replaceAllChar c rep b := by
  simp [replaceAllChar]

/-- The five chained replaces of `escapeHtml` distribute over
concatenation. -/
theorem escapeHtmlList_append (a b : List Char) :
    escapeHtmlList (a ++ b) = escapeHtmlList a ++ escapeHtmlList b := by
  simp [escapeHtmlList, replaceAllChar_append]

/-- On one character the five chained replaces act as the simultaneous
escape map: earlier stages do not produce characters that later stages
escape again, and the ampersands introduced by later stages are never
re-escaped because the `&` stage ran first. -/
theorem escapeHtmlList_singleton (c : Char) : escapeHtmlList [c] = escapeCharSpec c := by
  by_cases h1 : c = '&'
  · subst h1; decide
  by_cases h2 : c = '<'
  · subst h2; decide
  by_cases h3 : c = '>'
  · subst h3; decide
  by_cases h4 : c = '"'
  · subst h4; decide
  by_cases h5 : c = Char.ofNat 39
  · subst h5; decide
  simp [escapeHtmlList, replaceAllChar, escapeCharSpec, h1, h2, h3, h4, h5]

/-- `escapeHtml` equals the simultaneous one-pass escape of each
character. -/
theorem escapeHtml_charwise (l : List Char) :
    escapeHtmlList l = (l.map escapeCharSpec).flatten := by
  induction l with
  | nil => decide
  | cons c rest ih =>
    rw [show (c :: rest) = [c] ++ rest from rfl, escapeHtmlList_append,
      escapeHtmlList_singleton, ih]
    simp

/-- Claim C10: for every markdown input, `renderMarkdown`'s preprocessing
replaces each fenced ```` ```mermaid ```` block.  Whenever the
leftmost-match search `findFence` (the embedding of the global regex
`/```mermaid\s*([\s\S]*?)```/`) finds a match — whatever text precedes it,
backticks included, and whatever the captured body holds — the match
becomes `\n<div class="mermaid">…</div>\n` whose content is the body with
trailing whitespace removed and the five characters `& < > " '`
HTML-escaped, and the replace continues with the text after the closing
fence; with no remaining match the text is returned unchanged with the
flag false; the `mermaidDetected` flag is true iff at least one fence was
replaced.  The escape equals the simultaneous five-character map, and on
an explicitly well-formed fence (a whitespace run, a backtick-free body,
and a backtick-free prefix — the conditions under which that decomposition
is the leftmost match) `findFence` captures exactly that body. -/
theorem spec_C10 :
    (∀ l pre body after : List Char, findFence l = some (pre, body, after) →
      replaceMermaid l = (pre ++ mermaidDiv body ++ (replaceMermaid after).1, true)) ∧
    (∀ l : List Char, findFence l = none → replaceMermaid l = (l, false)) ∧
    (∀ (markedParse : String → String) (markdownContent : String),
      (renderMarkdown markedParse markdownContent).mermaidDetected =
        (findFence markdownContent.data).isSome) ∧
    (∀ l : List Char, escapeHtmlList l = (l.map escapeCharSpec).flatten) ∧
    (∀ pre ws body post : List Char, '`' ∉ pre → (∀ c ∈ ws, isJsSpace c = true) →
      body.head?.all (fun c => !(isJsSpace c)) = true → '`' ∉ body →
      findFence (pre ++ "```mermaid".data ++ ws ++ body ++ "```".data ++ post) =
        some (pre, body, post)) := by
  refine ⟨fun l pre body after h => replaceMermaid_found h,
    fun l h => replaceMermaid_no_fence h, ?_, escapeHtml_charwise,
    fun pre ws body post hpre hws hbody1 hbody2 =>
      findFence_with_prefix pre hpre ws body post hws hbody1 hbody2⟩
  intro markedParse markdownContent
  unfold renderMarkdown
  exact replaceMermaid_flag markdownContent.data

/-- Witness for C10: the replacement equation at a concrete input whose
prefix holds inline-code backticks and whose body holds a backtick, and
the fence-shape conjunct at a concrete well-formed fence. -/
theorem spec_C10_witness :
    replaceMermaid "`x` ```mermaid\nA`B<C  ```tail".data =
      ("`x` ".data ++ mermaidDiv "A`B<C  ".data ++ (replaceMermaid "tail".data).1, true) ∧
    findFence ("text ".data ++ "```mermaid".data ++ "\n".data ++ "A-->B".data ++
        "```".data ++ " rest".data) = some ("text ".data, "A-->B".data, " rest".data) := by
  constructor
  · exact spec_C10.1 _ _ _ _ (by decide)
  · exact spec_C10.2.2.2.2 "text ".data "\n".data "A-->B".data " rest".data
      (by decide) (by decide) (by decide) (by decide)
